import Mathlib

/-
Verification of the mention-processing bot (bot.py, state.py, venice_api.py,
twitter_client.py, config.py) against its natural-language specification.

Modelling conventions (shallow embedding):
* Python `str` values that are manipulated character-by-character are
  modelled as `List Char`; identifier-like strings (tweet ids, author ids,
  conversation ids, media keys) are modelled as `String`.
* Python sets and dicts are modelled as insertion-ordered lists without
  duplicate elements / keys, matching the way the program builds them.
* Network and LLM interactions are modelled as oracle values fed to the
  embedded control flow: the embedding reproduces exactly what the source
  does with each possible outcome of an external call.
* A missing attribute on the Python `Config` class (an `AttributeError` at
  runtime) is modelled as an `Option` field holding `none`.
* Times (`time.time()`, `datetime`) are modelled as integers (epoch seconds).
-/

set_option maxRecDepth 10000

namespace ArtCritic

/-! ## Python string primitives -/

/-- The Python whitespace characters removed by `str.strip()`. -/
def isPySpace (c : Char) : Bool :=
  c == (' ') || c == ('\t') || c == ('\n') || c == ('\r') || c == ('\x0b') || c == ('\x0c')

/-- Python `str.strip()`. -/
def pyStrip (s : List Char) : List Char :=
  ((s.dropWhile isPySpace).reverse.dropWhile isPySpace).reverse

/-- Index of the first occurrence of `pat` in `s` (Python `s.find(pat)` when
it succeeds); `none` when `pat` does not occur. -/
def findSub (pat : List Char) : List Char → Option Nat
  | [] => if pat.isPrefixOf ([] : List Char) then some 0 else none
  | c :: rest =>
    if pat.isPrefixOf (c :: rest) then some 0
    else (findSub pat rest).map (fun i => i + 1)

/-- Python `pat in s` (substring containment). -/
def containsSub (s pat : List Char) : Bool := (findSub pat s).isSome

/-- Index of the last occurrence of `pat` in `s` (Python `s.rfind(pat)` when
it succeeds); `none` when `pat` does not occur (Python returns -1). -/
def rfindSub (pat s : List Char) : Option Nat :=
  (List.range (s.length + 1)).reverse.find? (fun i => pat.isPrefixOf (s.drop i))

lemma isPrefixOf_length {p s : List Char} (h : p.isPrefixOf s = true) :
    p.length ≤ s.length := by
  induction p generalizing s with
  | nil => simp
  | cons a as ih =>
    cases s with
    | nil => simp [List.isPrefixOf] at h
    | cons b bs =>
      simp only [List.isPrefixOf, Bool.and_eq_true] at h
      simpa using Nat.succ_le_succ (ih h.2)

lemma findSub_bound {pat s : List Char} {i : Nat} (h : findSub pat s = some i) :
    i + pat.length ≤ s.length := by
  induction s generalizing i with
  | nil =>
    simp only [findSub] at h
    split at h
    · rename_i hp
      cases h
      simpa using isPrefixOf_length hp
    · cases h
  | cons c rest ih =>
    simp only [findSub] at h
    split at h
    · rename_i hp
      cases h
      simpa using isPrefixOf_length hp
    · cases hfs : findSub pat rest with
      | none => simp [hfs] at h
      | some j =>
        simp only [hfs, Option.map_some] at h
        cases h
        have := ih hfs
        simp only [List.length_cons]
        omega

lemma rfindSub_bound {pat s : List Char} {i : Nat} (h : rfindSub pat s = some i) :
    i + pat.length ≤ s.length := by
  simp only [rfindSub] at h
  have hmem : i ∈ (List.range (s.length + 1)).reverse :=
    List.mem_of_find?_eq_some h
  have hpred : pat.isPrefixOf (s.drop i) = true := by
    have := List.find?_some h
    simpa using this
  have hi : i < s.length + 1 := by
    have := List.mem_reverse.mp hmem
    simpa using List.mem_range.mp this
  have hlen := isPrefixOf_length hpred
  simp only [List.length_drop] at hlen
  omega

/-! ## Python set / dict primitives (insertion-ordered) -/

/-- Adding an element to a Python set, modelled as an insertion-ordered
duplicate-free list. -/
def pySetInsert (s : List String) (x : String) : List String :=
  if x ∈ s then s else s ++ [x]

/-- Building a Python set from an iterable (`{x for x in xs}`); also the
model of `dict.fromkeys` based order-preserving deduplication. -/
def pySetOfList (xs : List String) : List String :=
  xs.foldl pySetInsert []

/-- Python `dict.get(k)` on an insertion-ordered association list. -/
def dictGet (d : List (String × String)) (k : String) : Option String :=
  (d.find? (fun p => p.1 == k)).map (fun p => p.2)

/-- Python `d[k] = v` on an insertion-ordered association list: overwrites in
place when the key exists, appends otherwise. -/
def dictSet (d : List (String × String)) (k v : String) : List (String × String) :=
  if d.any (fun p => p.1 == k) then
    d.map (fun p => if p.1 == k then (k, v) else p)
  else d ++ [(k, v)]

/-! ## state.py : the durable State store

`processed_tweets` is the Python set of processed tweet ids (modelled as an
insertion-ordered duplicate-free list) and `allowed_authors` the dict from
conversation id to the single allowed author id. All ids are already
strings in the model, so the source's `str(...)` coercions are identities. -/

structure StateData where
  processed_tweets : List String
  allowed_authors : List (String × String)
deriving Repr, DecidableEq

/-- A JSON document, as produced by Python `json.load`. -/
inductive Json where
  | null : Json
  | jbool : Bool → Json
  | num : Int → Json
  | str : String → Json
  | arr : List Json → Json
  | obj : List (String × Json) → Json
deriving Repr

/-- Python `str(x)` on a JSON-decoded value. The rendering of decoded lists
and dicts is not needed by any claim and is left abstract. -/
def pyStr : Json → String
  | .null => "None"
  | .jbool true => "True"
  | .jbool false => "False"
  | .num n => toString n
  | .str s => s
  | .arr _ => "<list>"
  | .obj _ => "<dict>"

/-- Python `dict.get(k, default)` on a decoded JSON object (`json.load`
keeps the last value for a duplicated key, hence the reversed search). -/
def jsonGet (fs : List (String × Json)) (k : String) : Option Json :=
  (fs.reverse.find? (fun p => p.1 == k)).map (fun p => p.2)

/-- The errors `State.load` can raise past its `except FileNotFoundError`
handler. -/
inductive LoadErr where
  | typeErr : LoadErr
  | attrErr : LoadErr
  | decodeErr : LoadErr
deriving Repr, DecidableEq

/-- Iterating a decoded JSON value the way a Python `for`-loop would: a list
yields its elements, a string its characters, a dict its keys; any other
value raises `TypeError`. -/
def jsonIter : Json → Except LoadErr (List Json)
  | .arr xs => .ok xs
  | .str s => .ok (s.data.map (fun c => Json.str (String.mk [c])))
  | .obj fs => .ok (fs.map (fun p => Json.str p.1))
  | _ => .error .typeErr

/-- The on-disk state file as seen by `State.load`: missing, present but not
valid JSON, or a decoded JSON document. -/
inductive FileContent where
  | missing : FileContent
  | notJson : FileContent
  | json : Json → FileContent

namespace State

/-- The body of `State.load` applied to a decoded JSON document (state.py
lines 14-29): a bare list is the legacy format, a dict is the current
format, anything else resets to empty state. -/
def load_json (j : Json) : Except LoadErr StateData :=
  match j with
  | .arr xs => .ok ⟨pySetOfList (xs.map pyStr), []⟩
  | .obj fs =>
    match jsonIter ((jsonGet fs "processed_tweets").getD (Json.arr [])) with
    | .error e => .error e
    | .ok elems =>
      match (jsonGet fs "allowed_authors").getD (Json.obj []) with
      | .obj afs =>
        .ok ⟨pySetOfList (elems.map pyStr),
             afs.foldl (fun d p => dictSet d p.1 (pyStr p.2)) []⟩
      | _ => .error .attrErr
  | _ => .ok ⟨[], []⟩

/-- `State.load` (state.py lines 11-32). Only `FileNotFoundError` is caught;
a file that is not valid JSON raises `json.JSONDecodeError`, which
propagates to the caller. -/
def load (f : FileContent) : Except LoadErr StateData :=
  match f with
  | .missing => .ok ⟨[], []⟩
  | .notJson => .error .decodeErr
  | .json j => load_json j

/-- `State.save` (state.py lines 34-39), modelled as the JSON document
written to disk. -/
def save (s : StateData) : Json :=
  .obj [("processed_tweets", Json.arr (s.processed_tweets.map Json.str)),
        ("allowed_authors", Json.obj (s.allowed_authors.map (fun p => (p.1, Json.str p.2))))]

/-- `State.is_processed`. -/
def is_processed (s : StateData) (tweet_id : String) : Bool :=
  s.processed_tweets.contains tweet_id

/-- `State.add_tweet`. -/
def add_tweet (s : StateData) (tweet_id : String) : StateData :=
  { s with processed_tweets := pySetInsert s.processed_tweets tweet_id }

/-- `State.get_allowed_author`. -/
def get_allowed_author (s : StateData) (conversation_id : String) : Option String :=
  dictGet s.allowed_authors conversation_id

/-- `State.set_allowed_author`: an unconditional dict assignment. -/
def set_allowed_author (s : StateData) (conversation_id author_id : String) : StateData :=
  { s with allowed_authors := dictSet s.allowed_authors conversation_id author_id }

end State

/-! ### Round-trip lemmas -/

lemma pySetInsert_of_not_mem {s : List String} {x : String} (h : x ∉ s) :
    pySetInsert s x = s ++ [x] := by
  simp [pySetInsert, h]

lemma foldl_pySetInsert_append (xs : List String) :
    ∀ acc : List String, xs.Nodup → (∀ x ∈ xs, x ∉ acc) →
      xs.foldl pySetInsert acc = acc ++ xs := by
  induction xs with
  | nil => intro acc _ _; simp
  | cons x xs ih =>
    intro acc hnd hdisj
    have hx : x ∉ acc := hdisj x (List.mem_cons_self x xs)
    rw [List.foldl_cons, pySetInsert_of_not_mem hx,
        ih (acc ++ [x]) (List.Nodup.of_cons hnd)]
    · simp
    · intro y hy
      simp only [List.mem_append, List.mem_singleton]
      push_neg
      constructor
      · exact hdisj y (List.mem_cons_of_mem x hy)
      · rintro rfl
        exact (List.nodup_cons.mp hnd).1 hy

lemma pySetOfList_eq_self {xs : List String} (h : xs.Nodup) :
    pySetOfList xs = xs := by
  have := foldl_pySetInsert_append xs [] h (by simp)
  simpa [pySetOfList] using this

lemma mem_pySetInsert (acc : List String) (x y : String) :
    y ∈ pySetInsert acc x ↔ y ∈ acc ∨ y = x := by
  by_cases hx : x ∈ acc
  · simp only [pySetInsert, if_pos hx]
    constructor
    · exact Or.inl
    · rintro (h | rfl)
      · exact h
      · exact hx
  · simp [pySetInsert, hx]

lemma mem_foldl_pySetInsert (xs : List String) :
    ∀ (acc : List String) (y : String),
      y ∈ xs.foldl pySetInsert acc ↔ y ∈ acc ∨ y ∈ xs := by
  induction xs with
  | nil => intro acc y; simp
  | cons x xs ih =>
    intro acc y
    rw [List.foldl_cons, ih, mem_pySetInsert]
    simp only [List.mem_cons]
    tauto

lemma mem_pySetOfList {xs : List String} {y : String} :
    y ∈ pySetOfList xs ↔ y ∈ xs := by
  rw [pySetOfList, mem_foldl_pySetInsert]
  simp

lemma dictSet_of_not_key {d : List (String × String)} {k v : String}
    (h : ∀ p ∈ d, p.1 ≠ k) : dictSet d k v = d ++ [(k, v)] := by
  have : d.any (fun p => p.1 == k) = false := by
    simp only [List.any_eq_false, beq_iff_eq]
    exact h
  simp [dictSet, this]

lemma foldl_dictSet_append (ps : List (String × String)) :
    ∀ acc : List (String × String), (ps.map Prod.fst).Nodup →
      (∀ p ∈ ps, ∀ q ∈ acc, q.1 ≠ p.1) →
      ps.foldl (fun d p => dictSet d p.1 p.2) acc = acc ++ ps := by
  induction ps with
  | nil => intro acc _ _; simp
  | cons p ps ih =>
    intro acc hnd hdisj
    rw [List.map_cons, List.nodup_cons] at hnd
    have hp : ∀ q ∈ acc, q.1 ≠ p.1 := fun q hq => hdisj p (List.mem_cons_self p ps) q hq
    rw [List.foldl_cons, dictSet_of_not_key hp, ih (acc ++ [(p.1, p.2)])]
    · simp
    · exact hnd.2
    · intro r hr q hq
      simp only [List.mem_append, List.mem_singleton] at hq
      rcases hq with hq | hq
      · exact hdisj r (List.mem_cons_of_mem p hr) q hq
      · subst hq
        simp only [ne_eq]
        intro hcontra
        exact hnd.1 (by simpa [hcontra] using List.mem_map_of_mem Prod.fst hr)

/-! ## config.py constants -/

/-- `Config.ERROR_MESSAGE`. -/
def ERROR_MESSAGE : List Char :=
  ("I\x27m sorry, I\x27m having trouble connecting to my knowledge base. Please try again later.").data

/-! ## venice_api.py -/

/-- `_get_tweet_char_limit` (venice_api.py lines 24-28):
`Config.X_PREMIUM_CHAR_LIMIT = 25000` when `Config.X_PREMIUM_ENABLED`, else
`Config.STANDARD_CHAR_LIMIT = 280`. -/
def get_tweet_char_limit (premium : Bool) : Nat :=
  if premium then 25000 else 280

/-- The non-greedy block removal performed by
`re.sub(r"\x5bREF\x5d.*?\x5b/REF\x5d", "", text, flags=re.DOTALL)`: each
match is the first opening tag followed by the earliest closing tag after
it; scanning resumes after the removed block. -/
def removeRefBlocksAux (fuel : Nat) (s : List Char) : List Char :=
  match fuel with
  | 0 => s
  | fuel + 1 =>
    match findSub (("[REF]").data) s with
    | none => s
    | some i =>
      match findSub (("[/REF]").data) (s.drop (i + 5)) with
      | none => s
      | some j => s.take i ++ removeRefBlocksAux fuel ((s.drop (i + 5)).drop (j + 6))

/-- Entry point: every removed block consumes at least 11 characters, so
`s.length` units of fuel can never be exhausted and the recursion is
exactly the non-greedy scan. -/
def removeRefBlocks (s : List Char) : List Char := removeRefBlocksAux s.length s

/-- `_strip_ref_tags` (venice_api.py lines 17-21): remove every
`\x5bREF\x5d...\x5b/REF\x5d` block, then `strip()`. The `re.sub` call cannot
raise, so the `except` branch is dead. -/
def strip_ref_tags (s : List Char) : List Char :=
  pyStrip (removeRefBlocks s)

/-- The `\x5bFINAL_REPLY\x5d` half of `_extract_final_reply_and_notes`
(venice_api.py lines 31-39): a case-insensitive non-greedy
`re.search(r"\x5bFINAL_REPLY\x5d(.*?)\x5b/FINAL_REPLY\x5d", ...)` matches at
the first opening tag when a closing tag occurs after it, capturing the
minimal text in between, which is then stripped. The `\x5bNOTES\x5d` half
only feeds the retry prompt and is not modelled. -/
def extract_final_reply (s : List Char) : Option (List Char) :=
  let ls := s.map Char.toLower
  match findSub (("[final_reply]").data) ls with
  | none => none
  | some i =>
    match findSub (("[/final_reply]").data) (ls.drop (i + 13)) with
    | none => none
    | some j => some (pyStrip ((s.drop (i + 13)).take j))

/-- `banned_patterns` (venice_api.py line 169). -/
def bannedPatterns : List (List Char) :=
  [("Hey there!").data, ("Hi!").data, ("Hello!").data,
   ("Stay safe").data, ("Be careful").data, ("Be mindful").data]

/-- `any(pattern in candidate_tweet for pattern in banned_patterns)`. -/
def is_banned (t : List Char) : Bool :=
  bannedPatterns.any (fun p => containsSub t p)

/-- The outcomes of the two possible LLM requests issued by `craft_tweet`:
each field is the `content` string of the corresponding HTTP response, or an
error for any raised exception (network failure, `raise_for_status`,
malformed body). -/
structure CraftOracle where
  initial : Except Unit (List Char)
  retry : Except Unit (List Char)

/-- The no-`\x5bFINAL_REPLY\x5d` fallback path of `craft_tweet`
(venice_api.py lines 208-272): one crafting request; if its text contains a
banned pattern or exceeds the limit, exactly one retry request whose text is
returned unchecked. The second component counts LLM requests attempted. -/
def craft_tweet_no_candidate (premium : Bool) (o : CraftOracle) : List Char × Nat :=
  let char_limit := get_tweet_char_limit premium
  match o.initial with
  | .error _ => (ERROR_MESSAGE, 1)
  | .ok content =>
    let initial_tweet := strip_ref_tags (pyStrip content)
    if is_banned initial_tweet || decide (initial_tweet.length > char_limit) then
      match o.retry with
      | .ok rc => (strip_ref_tags (pyStrip rc), 2)
      | .error _ => (ERROR_MESSAGE, 2)
    else (strip_ref_tags initial_tweet, 1)

/-- `craft_tweet` (venice_api.py lines 156-272). When a nonempty
`\x5bFINAL_REPLY\x5d` candidate is present: return it (stripped) if it is
neither banned nor over the limit, else issue exactly one rewrite request
and return its text unchecked (or `ERROR_MESSAGE` on exception). Otherwise
fall back to `craft_tweet_no_candidate`. `full_analysis` and `use_mistral`
only influence prompts and model choice, which the oracle absorbs. The
second component counts LLM requests attempted. -/
def craft_tweet (premium : Bool) (o : CraftOracle) (summary_text : List Char)
    (full_analysis : Option (List Char)) (use_mistral : Bool) : List Char × Nat :=
  let char_limit := get_tweet_char_limit premium
  match extract_final_reply summary_text with
  | some c0 =>
    if c0.isEmpty then craft_tweet_no_candidate premium o
    else
      let candidate := strip_ref_tags c0
      if !is_banned candidate && decide (candidate.length ≤ char_limit) then
        (pyStrip candidate, 0)
      else
        match o.retry with
        | .ok rc => (strip_ref_tags (pyStrip rc), 1)
        | .error _ => (ERROR_MESSAGE, 1)
  | none => craft_tweet_no_candidate premium o

/-! ## twitter_client.py -/

/-- The text `reply_to_tweet` (twitter_client.py lines 35-100) actually
submits to `client.create_tweet`: the input when it fits the active limit,
otherwise the smart truncation of lines 72-83. The source compares
`last_punct > char_limit * 0.7` in IEEE doubles; for both possible limits
(280 and 25000) the double `char_limit * 0.7` is exactly the rational
`7 * char_limit / 10`, so the comparison is modelled as
`10 * last_punct > 7 * char_limit`. `rfind` returning -1 never passes that
comparison and is modelled as `none`. -/
def smart_truncate_hit (char_limit : Nat) (truncated : List Char) : Option Nat :=
  [(". ").data, ("! ").data, ("? ").data].findSome? (fun p =>
    match rfindSub p truncated with
    | some lp => if 10 * lp > 7 * char_limit then some lp else none
    | none => none)

/-- The smart-truncation block (twitter_client.py lines 72-83): `rfind` each
sentence-ending punctuation in turn over `text\x5b:char_limit-10\x5d`, cut at the
first one past 70% of the limit, else hard-cut with an ellipsis. -/
def smart_truncate (char_limit : Nat) (text : List Char) : List Char :=
  match smart_truncate_hit char_limit (text.take (char_limit - 10)) with
  | some lp => text.take (lp + 1)
  | none => text.take (char_limit - 3) ++ ("...").data

def reply_to_tweet_submitted (premium : Bool) (text : List Char) : List Char :=
  let char_limit := if premium then 25000 else 280
  if text.length ≤ char_limit then text
  else smart_truncate char_limit text

/-! ## bot.py : data model -/

/-- A user record from the mentions response (`user_lookup` values). The
source attribute `protected` is a Lean keyword, hence `isProtected`. -/
structure Author where
  id : String
  isProtected : Bool
deriving Repr, DecidableEq

/-- A tweet's `created_at` attribute as `_is_tweet_too_old` sees it: a
timezone-aware datetime, a parseable RFC3339 string (both carried as epoch
seconds), or a string whose parsing or comparison raises. -/
inductive CreatedAt where
  | dt : Int → CreatedAt
  | strGood : Int → CreatedAt
  | strBad : CreatedAt
deriving Repr, DecidableEq

/-- A mention tweet. `referenced_tweets` are `(type, id)` pairs; `entities`
is the url list `extract_urls_from_entities` would produce from the raw
entities dict (absent attribute or `None` modelled as `none`). -/
structure Tweet where
  id : String
  author_id : String
  conversation_id : String
  created_at : Option CreatedAt
  in_reply_to_user_id : Option String
  text : List Char
  referenced_tweets : List (String × String)
  entities : Option (List String)

/-- A `get_tweet_by_id` response (`response.data` plus its includes),
distilled: `photoFetches` holds, for each photo-type media attachment in
`media_keys` order, the body of a successful (HTTP 200) download, or `none`
for a timeout, request error, or non-200 status. -/
structure TweetResp where
  text : List Char
  referenced_tweets : List (String × String)
  photoFetches : List (Option String)
  entities : Option (List String)

/-- The `tweepy.errors.TooManyRequests` signal re-raised out of
`_extract_full_context` (reset time and remaining quota from the response
headers). -/
inductive Throttle where
  | tooMany : Int → Int → Throttle

/-- Outcome of a `get_tweet_by_id` call: a response with data, a falsy
response or one without data, a `TooManyRequests` exception, or another
`TweepyException`. -/
inductive FetchResult where
  | found : TweetResp → FetchResult
  | notFound : FetchResult
  | tooMany : Int → Int → FetchResult
  | tweepyErr : FetchResult

/-- utils.py `extract_urls_from_entities` applied to a pre-expanded url
list: empty for a missing/None entities dict, deduplicated preserving
first-seen order (`list(dict.fromkeys(urls))`). -/
def extract_urls_from_entities (e : Option (List String)) : List String :=
  pySetOfList (e.getD [])

/-- Python truthiness of an optional string (or bytes) value: `None` and
the empty string are falsy. -/
def truthyStr : Option String → Bool
  | none => false
  | some s => !(s == "")

/-- The `Config` attributes bot.py reads that config.py does not define;
an attribute access on a missing field raises `AttributeError`, modelled by
`none`. -/
structure BotConfig where
  max_tweet_age_minutes : Option Int
  use_session_start_cutoff : Option Bool

/-- The repository's actual configuration: config.py defines neither
`MAX_TWEET_AGE_MINUTES` (it defines `MAX_TWEET_AGE_HOURS` instead) nor
`USE_SESSION_START_CUTOFF`. -/
def repoConfig : BotConfig := ⟨none, none⟩

/-- Modelled from the spec: `Config.MAX_TWEET_AGE_MINUTES` and
`Config.USE_SESSION_START_CUTOFF` are read by `VeniceBot` but missing from
config.py. Spec section 6 lists a maximum mention age among the tunables;
bot.py's own comments say 20 minutes, and the session-start cutoff is an
optional guard (disabled like the other boolean env flags by default). -/
def specConfig : BotConfig := ⟨some 20, some false⟩

/-- The mutable fields of `VeniceBot` relevant to the claims, plus its
durable `State`. -/
structure BotState where
  state : StateData
  hourly_reply_count : Nat
  hourly_check_time : Int
  last_check_time : Int
  session_start : Int
  rate_limit_reset_time : Int
  rate_limit_remaining : Int
  rate_limit_backoff : Nat
deriving Repr, DecidableEq

/-! ## bot.py : rate limiting and age gate -/

/-- `VeniceBot._handle_rate_limit` (bot.py lines 79-96). Sleeps are elided;
only the state updates are modelled: a reset time in the future waits it
out and resets the backoff multiplier to 1, a stale signal doubles the
multiplier capped at 16. -/
def handle_rate_limit (now reset_time remaining : Int) (b : BotState) : BotState :=
  if reset_time > now then
    { b with rate_limit_reset_time := reset_time,
             rate_limit_remaining := remaining,
             rate_limit_backoff := 1 }
  else
    { b with rate_limit_backoff := min (b.rate_limit_backoff * 2) 16 }

/-- The age comparison of `_is_tweet_too_old` line 140:
`time_diff > timedelta(minutes=Config.MAX_TWEET_AGE_MINUTES)`. Reading the
missing attribute raises `AttributeError`, which the enclosing broad
`except` turns into `True` (skip). -/
def tooOldCheck (cfg : BotConfig) (now tweet_time : Int) : Bool :=
  match cfg.max_tweet_age_minutes with
  | none => true
  | some m => decide (now - tweet_time > 60 * m)

/-- `VeniceBot._is_tweet_too_old` (bot.py lines 114-148): a missing
`created_at`, an unparseable timestamp string, or any exception (including
the `AttributeError` from the missing config attribute) yields `True`. -/
def is_tweet_too_old (cfg : BotConfig) (now : Int) (t : Tweet) : Bool :=
  match t.created_at with
  | none => true
  | some .strBad => true
  | some (.dt tweet_time) => tooOldCheck cfg now tweet_time
  | some (.strGood tweet_time) => tooOldCheck cfg now tweet_time

/-! ## bot.py : context extraction -/

mutual

/-- `VeniceBot._extract_full_context` (bot.py lines 187-241), with
`fuel = max_depth - depth` (the call sites use `depth=0, max_depth=3`, i.e.
fuel 3; each nested quote costs one unit). At fuel 0 (`depth >= max_depth`)
the tweet's text is returned with no images and no further recursion. A
`TooManyRequests` from a nested fetch is re-raised (line 236). -/
def extract_full_context (fetch : String → FetchResult) :
    Nat → TweetResp → Except Throttle (List Char × List String)
  | 0, tr => .ok (tr.text, [])
  | fuel + 1, tr =>
    extract_full_context_refs fetch fuel tr.referenced_tweets tr.text
      (tr.photoFetches.filterMap id)
termination_by fuel _ => (fuel, 0)

/-- The `referenced_tweets` loop of `_extract_full_context` (lines
218-239): only `quoted` references are followed; a missing response is
skipped, a `TweepyException` continues with the next reference, and a
`TooManyRequests` is re-raised. Nested text is appended as
`\x22\n\n[Quoted tweet: ...\x5d\x22`. -/
def extract_full_context_refs (fetch : String → FetchResult) :
    Nat → List (String × String) → List Char → List String →
    Except Throttle (List Char × List String)
  | _, [], t, imgs => .ok (t, imgs)
  | fuel, (ty, rid) :: rest, t, imgs =>
    if ty == "quoted" then
      match fetch rid with
      | .found sub =>
        match extract_full_context fetch fuel sub with
        | .ok (qt, qi) =>
          extract_full_context_refs fetch fuel rest
            (t ++ ("\n\n[Quoted tweet: ").data ++ qt ++ ("]").data) (imgs ++ qi)
        | .error e => .error e
      | .notFound => extract_full_context_refs fetch fuel rest t imgs
      | .tooMany rst rem => .error (.tooMany rst rem)
      | .tweepyErr => extract_full_context_refs fetch fuel rest t imgs
    else extract_full_context_refs fetch fuel rest t imgs
termination_by fuel rs _ _ => (fuel, rs.length + 1)

end

/-- The `referenced_tweets` loop of `_extract_context_from_tweet` (bot.py
lines 156-180): on `TooManyRequests` (raised by the fetch or re-raised by
`_extract_full_context`) it calls `_handle_rate_limit` and breaks out of
the loop; other Twitter errors continue with the next reference. The
context text is overwritten by each successfully expanded quote. -/
def ecft_refs (fetch : String → FetchResult) (now : Int) :
    List (String × String) → Option (List Char) → List String → List String →
    BotState → Option (List Char) × List String × List String × BotState
  | [], ct, imgs, urls, b => (ct, imgs, urls, b)
  | (ty, rid) :: rest, ct, imgs, urls, b =>
    if ty == "quoted" then
      match fetch rid with
      | .found sub =>
        match extract_full_context fetch 3 sub with
        | .ok (qt, qi) =>
          ecft_refs fetch now rest (some qt) (imgs ++ qi)
            (urls ++ extract_urls_from_entities sub.entities) b
        | .error (.tooMany rst rem) => (ct, imgs, urls, handle_rate_limit now rst rem b)
      | .notFound => ecft_refs fetch now rest ct imgs urls b
      | .tooMany rst rem => (ct, imgs, urls, handle_rate_limit now rst rem b)
      | .tweepyErr => ecft_refs fetch now rest ct imgs urls b
    else ecft_refs fetch now rest ct imgs urls b

/-- `VeniceBot._extract_context_from_tweet` (bot.py lines 150-185): walk the
mention's own quoted references, then append the mention's entity urls and
deduplicate preserving order. -/
def extract_context_from_tweet (fetch : String → FetchResult) (now : Int)
    (t : Tweet) (b : BotState) :
    Option (List Char) × List String × List String × BotState :=
  match ecft_refs fetch now t.referenced_tweets none [] [] b with
  | (ct, imgs, urls, b2) =>
    (ct, imgs, pySetOfList (urls ++ extract_urls_from_entities t.entities), b2)

/-- The context-assembly block of `_process_single_tweet` (bot.py lines
343-402). A conversation-root mention (`conversation_id == id`) only looks
at its own quoted tweets and never aborts. A threaded mention fetches the
conversation root; `TooManyRequests` there (or re-raised from the
recursive extraction) calls `_handle_rate_limit` and aborts processing this
mention (`.error`, mention not marked); other errors degrade to no
context. -/
def context_phase (fetch : String → FetchResult) (now : Int)
    (bot_user_id : String) (t : Tweet) (b : BotState) :
    Except BotState (Option (List Char) × List String × List String × BotState) :=
  if t.conversation_id == t.id then
    .ok (extract_context_from_tweet fetch now t b)
  else
    match fetch t.conversation_id with
    | .found parent =>
      match extract_full_context fetch 3 parent with
      | .ok (ct, ci) =>
        let is_cont := t.in_reply_to_user_id == some bot_user_id
        let ct2 :=
          if is_cont then
            if ct.isEmpty then ("[CONTINUING CONVERSATION]").data
            else ("[CONTINUING CONVERSATION] ").data ++ ct
          else ct
        let urls := extract_urls_from_entities parent.entities ++
          extract_urls_from_entities t.entities
        .ok (some ct2, ci, urls, b)
      | .error (.tooMany rst rem) => .error (handle_rate_limit now rst rem b)
    | .notFound => .ok (none, [], [], b)
    | .tooMany rst rem => .error (handle_rate_limit now rst rem b)
    | .tweepyErr => .ok (none, [], [], b)

/-! ## bot.py : reply generation and posting -/

/-- Outcome of the `reply_to_tweet` call inside `_generate_and_send_reply`:
a confirmed post (`create_tweet` returned a response), a `Forbidden` error
(the function returns `None`), a `TooManyRequests`, or another
`TweepyException` (both re-raised to the caller). -/
inductive PostResult where
  | posted : PostResult
  | forbidden : PostResult
  | tooMany : Int → Int → PostResult
  | tweepyErr : PostResult
deriving Repr, DecidableEq

/-- The external outcomes consumed by `_generate_and_send_reply`: the
string returned by `get_expert_analysis` (its internal `except` already
turns any failure into `ERROR_MESSAGE`), the LLM outcomes for
`craft_tweet`, and the posting outcome. -/
structure GenOracle where
  analysis : List Char
  craft : CraftOracle
  post : PostResult

/-- `VeniceBot._generate_and_send_reply` (bot.py lines 243-282). Returns
the `reply_successful` flag and the updated bot state: on a confirmed post
the hourly counter is incremented and the conversation gate is set to the
mention's author when no truthy gate exists; every failure path returns
`False` without touching the processed set. -/
def generate_and_send_reply (premium : Bool) (o : GenOracle) (now : Int)
    (t : Tweet) (image_bytes image_url : Option String) (b : BotState) :
    Bool × BotState :=
  if o.analysis == ERROR_MESSAGE then (false, b)
  else
    let use_mistral := truthyStr image_bytes || truthyStr image_url
    let final_reply := (craft_tweet premium o.craft o.analysis none use_mistral).1
    if final_reply.isEmpty || final_reply == ERROR_MESSAGE then (false, b)
    else
      match o.post with
      | .posted =>
        let b1 := { b with hourly_reply_count := b.hourly_reply_count + 1 }
        let b2 :=
          if truthyStr (State.get_allowed_author b1.state t.conversation_id) then b1
          else { b1 with state := State.set_allowed_author b1.state t.conversation_id t.author_id }
        (true, b2)
      | .forbidden => (false, b)
      | .tooMany rst rem => (false, handle_rate_limit now rst rem b)
      | .tweepyErr => (false, b)

/-- The tail of `_process_single_tweet` (bot.py lines 442-447): only a
successful reply marks the mention processed; a failed reply leaves it for
retry on the next poll. -/
def mark_if_successful (result : Bool × BotState) (tweet_id : String) : BotState :=
  if result.1 then
    { result.2 with state := State.add_tweet result.2.state tweet_id }
  else result.2

/-! ## bot.py : per-mention orchestration -/

/-- Outcome of `process_tweet_media(tweet, media_lookup)` as seen at its
call site (bot.py lines 405-419): a `(image_bytes, image_url)` pair, a
`TooManyRequests` (handled and aborting this mention), or another error
(degrading to no image). -/
inductive MediaResult where
  | ok : Option String → Option String → MediaResult
  | tooMany : Int → Int → MediaResult
  | tweepyErr : MediaResult
  | otherErr : MediaResult

/-- The per-mention external world: tweet fetches, media processing and the
generation/posting outcomes. -/
structure TweetEnv where
  fetch : String → FetchResult
  media : MediaResult
  gen : GenOracle

/-- The terminal outcome of `_process_single_tweet` for one mention (used
to state which exit the control flow took; `replied ok` means the
generation pipeline was invoked and `ok` was `reply_successful`). -/
inductive ProcOutcome where
  | alreadyProcessed : ProcOutcome
  | skippedAuthor : ProcOutcome
  | skippedSelf : ProcOutcome
  | skippedGate : ProcOutcome
  | skippedAge : ProcOutcome
  | abortedRateLimit : ProcOutcome
  | replied : Bool → ProcOutcome
deriving Repr, DecidableEq

/-- Whether an outcome reached the generation pipeline
(`get_expert_analysis` was called). -/
def pipelineInvoked : ProcOutcome → Bool
  | .replied _ => true
  | _ => false

/-- `_process_single_tweet` from the age gate onward (bot.py lines 337-449):
age skip, context assembly, media processing, context-image promotion,
handler dispatch on image truthiness, and the mark-processed-only-on-success
tail (lines 442-447). -/
def process_after_gate (cfg : BotConfig) (premium : Bool) (now : Int)
    (bot_user_id : String) (env : TweetEnv) (t : Tweet) (b : BotState) :
    BotState × ProcOutcome :=
  if is_tweet_too_old cfg now t then
    ({ b with state := State.add_tweet b.state t.id }, .skippedAge)
  else
    match context_phase env.fetch now bot_user_id t b with
    | .error b2 => (b2, .abortedRateLimit)
    | .ok (ctext, cimgs, _curls, b2) =>
      match env.media with
      | .tooMany rst rem => (handle_rate_limit now rst rem b2, .abortedRateLimit)
      | other =>
        let ib := match other with | .ok x _ => x | _ => none
        let iu := match other with | .ok _ y => y | _ => none
        let promoted :=
          match truthyStr ib, cimgs with
          | false, c :: _ => (some c, (none : Option String))
          | _, _ => (ib, iu)
        let handled :=
          if truthyStr promoted.1 then
            generate_and_send_reply premium env.gen now t promoted.1 promoted.2 b2
          else
            generate_and_send_reply premium env.gen now t none none b2
      (mark_if_successful handled t.id, .replied handled.1)

/-- `VeniceBot._process_single_tweet` (bot.py lines 310-449): the gate
sequence (already processed, author missing/protected, self-authored,
conversation gate) followed by `process_after_gate`. The conversation gate
skips only when the stored author is truthy and differs from the mention's
author (string comparison). -/
def process_single_tweet (cfg : BotConfig) (premium : Bool) (now : Int)
    (bot_user_id : String) (user_lookup : String → Option Author)
    (env : TweetEnv) (t : Tweet) (b : BotState) : BotState × ProcOutcome :=
  if State.is_processed b.state t.id then (b, .alreadyProcessed)
  else
    match user_lookup t.author_id with
    | none => ({ b with state := State.add_tweet b.state t.id }, .skippedAuthor)
    | some author =>
      if author.isProtected then
        ({ b with state := State.add_tweet b.state t.id }, .skippedAuthor)
      else if author.id == bot_user_id then
        ({ b with state := State.add_tweet b.state t.id }, .skippedSelf)
      else
        match State.get_allowed_author b.state t.conversation_id with
        | some a =>
          if !(a == "") && !(t.author_id == a) then
            ({ b with state := State.add_tweet b.state t.id }, .skippedGate)
          else process_after_gate cfg premium now bot_user_id env t b
        | none => process_after_gate cfg premium now bot_user_id env t b

/-! ## bot.py : the poll cycle -/

/-- Outcome of the `get_mentions` call in `process_mentions`: a response
with data, a falsy/empty response, a `TooManyRequests`, another
`TweepyException`, or an unexpected exception. -/
inductive MentionsResult where
  | got : List Tweet → MentionsResult
  | noneFound : MentionsResult
  | tooMany : Int → Int → MentionsResult
  | tweepyErr : MentionsResult
  | otherErr : MentionsResult

/-- The external world for one poll cycle. `tweet_env` supplies the
per-mention oracles, keyed by tweet id. -/
structure PollEnv where
  now : Int
  mentions : MentionsResult
  user_lookup : String → Option Author
  tweet_env : String → TweetEnv

/-- How a `process_mentions` invocation ended. `attrError` is the
uncaught `AttributeError` raised at bot.py line 463/466 when the config
attribute is missing (it propagates to `run`). -/
inductive PollExit where
  | quotaSkip : PollExit
  | attrError : PollExit
  | emptyCompleted : PollExit
  | completed : PollExit
  | rateLimited : PollExit
  | twitterError : PollExit
  | unexpectedError : PollExit
deriving Repr, DecidableEq

/-- The per-mention loop of `process_mentions` (bot.py lines 485-510),
oldest first: the optional session-start-cutoff guard (lines 493-503, a
parse failure falls through to processing), then `_process_single_tweet`. -/
def process_loop (cfg : BotConfig) (premium : Bool) (penv : PollEnv)
    (bot_user_id : String) (useCutoff : Bool) : List Tweet → BotState → BotState
  | [], b => b
  | t :: rest, b =>
    let proc := (process_single_tweet cfg premium penv.now bot_user_id
      penv.user_lookup (penv.tweet_env t.id) t b).1
    let b2 :=
      if useCutoff then
        match t.created_at with
        | some (.dt ct) | some (.strGood ct) =>
          if ct < b.session_start then { b with state := State.add_tweet b.state t.id }
          else proc
        | some .strBad => proc
        | none => proc
      else proc
    process_loop cfg premium penv bot_user_id useCutoff rest b2

/-- `VeniceBot.process_mentions` (bot.py lines 451-535): hourly-counter
reset, hourly quota gate, the lookback computation (whose only observable
effect is the `AttributeError` when a config attribute is missing), the
mentions fetch, the per-mention loop, and the poll-level error handlers.
Sleeps are elided. -/
def process_mentions (cfg : BotConfig) (premium : Bool) (bot_user_id : String)
    (penv : PollEnv) (b : BotState) : BotState × PollExit :=
  let b :=
    if penv.now - b.hourly_check_time ≥ 3600 then
      { b with hourly_reply_count := 0, hourly_check_time := penv.now }
    else b
  if b.hourly_reply_count ≥ 30 then (b, .quotaSkip)
  else
    match cfg.use_session_start_cutoff, cfg.max_tweet_age_minutes with
    | none, _ => (b, .attrError)
    | some _, none => (b, .attrError)
    | some useCutoff, some _ =>
      match penv.mentions with
      | .tooMany rst rem => (handle_rate_limit penv.now rst rem b, .rateLimited)
      | .tweepyErr =>
        ({ b with rate_limit_backoff := min (b.rate_limit_backoff * 2) 16 }, .twitterError)
      | .otherErr =>
        ({ b with rate_limit_backoff := min (b.rate_limit_backoff * 2) 16 }, .unexpectedError)
      | .noneFound => ({ b with last_check_time := penv.now }, .emptyCompleted)
      | .got ts =>
        if ts.isEmpty then ({ b with last_check_time := penv.now }, .emptyCompleted)
        else
          let b2 := process_loop cfg premium penv bot_user_id useCutoff ts.reverse b
          ({ b2 with last_check_time := penv.now }, .completed)

/-! ## Store lemmas -/

lemma dictGet_dictSet_same (d : List (String × String)) (k v : String) :
    dictGet (dictSet d k v) k = some v := by
  unfold dictSet
  by_cases h : d.any (fun p => p.1 == k)
  · rw [if_pos h]
    induction d with
    | nil => simp at h
    | cons p d ih =>
      by_cases hp : p.1 = k
      · simp [dictGet, hp]
      · have h' : d.any (fun q => q.1 == k) = true := by
          simp only [List.any_cons] at h
          rcases (Bool.or_eq_true _ _).mp h with hk | hd
          · exact absurd (by simpa using hk) hp
          · exact hd
        have := ih h'
        simpa [dictGet, List.find?_cons, hp] using this
  · rw [if_neg h]
    have hnone : d.find? (fun p => p.1 == k) = none := by
      rw [List.find?_eq_none]
      intro p hp
      simp only [List.any_eq_true, not_exists, not_and] at h
      have := h p hp
      simpa using this
    simp [dictGet, List.find?_append, hnone]

lemma mem_add_tweet (s : StateData) (id0 : String) :
    id0 ∈ (State.add_tweet s id0).processed_tweets := by
  simp only [State.add_tweet, pySetInsert]
  by_cases h : id0 ∈ s.processed_tweets <;> simp [h]

lemma processed_add_tweet_other (s : StateData) (id0 : String) :
    (State.add_tweet s id0).allowed_authors = s.allowed_authors := rfl

lemma get_allowed_set_same (s : StateData) (c a : String) :
    State.get_allowed_author (State.set_allowed_author s c a) c = some a := by
  simp only [State.get_allowed_author, State.set_allowed_author]
  exact dictGet_dictSet_same s.allowed_authors c a

lemma handle_rate_limit_state (now rst rem : Int) (b : BotState) :
    (handle_rate_limit now rst rem b).state = b.state := by
  unfold handle_rate_limit
  split <;> rfl

lemma handle_rate_limit_hourly (now rst rem : Int) (b : BotState) :
    (handle_rate_limit now rst rem b).hourly_reply_count = b.hourly_reply_count := by
  unfold handle_rate_limit
  split <;> rfl

/-! ## Claim C4 -/

/-- C4: saving and then loading reproduces the `(processedIds, allowedAuthors)`
pair (for well-formed states, whose set and dict have no duplicates), and
loading a legacy bare JSON array of id strings yields that array as the
processed set (deduplicated, preserving membership) with an empty
allowed-authors map. -/
theorem c4_state_roundtrip :
    (∀ s : StateData, s.processed_tweets.Nodup →
      (s.allowed_authors.map Prod.fst).Nodup →
      State.load (FileContent.json (State.save s)) = Except.ok s) ∧
    (∀ ids : List String,
      State.load (FileContent.json (Json.arr (ids.map Json.str))) =
        Except.ok ⟨pySetOfList ids, []⟩ ∧
      ∀ x : String, x ∈ pySetOfList ids ↔ x ∈ ids) := by
  constructor
  · intro s h1 h2
    obtain ⟨pt, aa⟩ := s
    dsimp only at h1 h2
    have step : State.load (FileContent.json (State.save ⟨pt, aa⟩)) =
        Except.ok ⟨pySetOfList ((pt.map Json.str).map pyStr),
          (aa.map (fun p => (p.1, Json.str p.2))).foldl
            (fun d p => dictSet d p.1 (pyStr p.2)) []⟩ := rfl
    rw [step, List.map_map, List.foldl_map]
    show Except.ok (⟨pySetOfList (pt.map (fun x => x)),
      aa.foldl (fun d p => dictSet d p.1 p.2) []⟩ : StateData) = Except.ok ⟨pt, aa⟩
    rw [List.map_id', foldl_dictSet_append aa [] h2 (by simp),
      pySetOfList_eq_self h1, List.nil_append]
  · intro ids
    constructor
    · have step : State.load (FileContent.json (Json.arr (ids.map Json.str))) =
          Except.ok ⟨pySetOfList ((ids.map Json.str).map pyStr), []⟩ := rfl
      rw [step, List.map_map]
      show Except.ok (⟨pySetOfList (ids.map (fun x => x)), []⟩ : StateData) =
        Except.ok ⟨pySetOfList ids, []⟩
      rw [List.map_id']
    · intro x
      exact mem_pySetOfList

/-- C4 witness: the round-trip theorem applied to a concrete state. -/
theorem c4_state_roundtrip_witness :
    State.load (FileContent.json (State.save ⟨["a", "b"], [("c1", "x1")]⟩)) =
      Except.ok ⟨["a", "b"], [("c1", "x1")]⟩ :=
  c4_state_roundtrip.1 ⟨["a", "b"], [("c1", "x1")]⟩ (by decide) (by decide)

/-! ## Claim C5 -/

/-- C5 counterexample: a persisted file that is not valid JSON makes
`State.load` raise (the `json.JSONDecodeError` is not caught; only
`FileNotFoundError` is), instead of initializing to empty state. -/
theorem c5_corrupt_file_raises :
    State.load FileContent.notJson = Except.error LoadErr.decodeErr ∧
    State.load FileContent.notJson ≠ Except.ok ⟨[], []⟩ := by
  constructor
  · rfl
  · intro h
    simp [State.load] at h

/-- Whether a decoded JSON document is a list or a dict (the two shapes
`State.load` handles specially). -/
def jsonIsListOrDict : Json → Bool
  | .arr _ => true
  | .obj _ => true
  | _ => false

/-- C5 amended: a missing file, and a file holding valid JSON of any shape
other than a list or a dict, initialize the state to empty; but a file that
is not valid JSON raises the JSON decode error instead of resetting. -/
theorem c5_amended :
    State.load FileContent.missing = Except.ok ⟨[], []⟩ ∧
    (∀ j : Json, jsonIsListOrDict j = false →
      State.load (FileContent.json j) = Except.ok ⟨[], []⟩) ∧
    State.load FileContent.notJson = Except.error LoadErr.decodeErr := by
  refine ⟨rfl, ?_, rfl⟩
  intro j hj
  cases j <;> simp [jsonIsListOrDict] at hj <;> rfl

/-- C5 witness: the amended theorem applied to a concrete non-list,
non-dict document. -/
theorem c5_amended_witness :
    State.load (FileContent.json (Json.num 7)) = Except.ok ⟨[], []⟩ :=
  c5_amended.2.1 (Json.num 7) (by decide)

/-! ## Claim C6 -/

/-- C6 counterexample: `State.set_allowed_author` on a conversation that
already has a recorded author is not a no-op — it overwrites the stored
author (last writer wins at the store level). -/
theorem c6_set_allowed_overwrites :
    State.get_allowed_author
        (State.set_allowed_author ⟨[], [("c1", "a1")]⟩ "c1" "a2") "c1" = some "a2" ∧
    (some "a2" : Option String) ≠ some "a1" := by
  constructor
  · rfl
  · decide

/-- C6 amended: `set_allowed_author` itself is an unconditional overwrite
(last writer wins); the first-writer-wins behavior is enforced at its only
call site, `_generate_and_send_reply`, which calls it only when
`get_allowed_author` returns no truthy author — so through that guarded
path an existing (nonempty) recorded author is never changed. -/
theorem c6_amended :
    (∀ (s : StateData) (c a1 a2 : String),
      State.get_allowed_author s c = some a1 →
      State.get_allowed_author (State.set_allowed_author s c a2) c = some a2) ∧
    (∀ (premium : Bool) (o : GenOracle) (now : Int) (t : Tweet)
        (ib iu : Option String) (b : BotState) (a : String),
      State.get_allowed_author b.state t.conversation_id = some a → a ≠ "" →
      State.get_allowed_author
          (generate_and_send_reply premium o now t ib iu b).2.state
          t.conversation_id = some a) := by
  constructor
  · intro s c a1 a2 _
    exact get_allowed_set_same s c a2
  · intro premium o now t ib iu b a hget hne
    have htruthy : truthyStr (State.get_allowed_author b.state t.conversation_id) = true := by
      rw [hget]
      simpa [truthyStr] using hne
    cases hpost : o.post with
    | posted =>
      simp only [generate_and_send_reply, hpost]
      split
      · exact hget
      · split
        · exact hget
        · simp only [htruthy, if_true]
          exact hget
    | forbidden =>
      simp only [generate_and_send_reply, hpost]
      split
      · exact hget
      · split
        · exact hget
        · exact hget
    | tooMany rst rem =>
      simp only [generate_and_send_reply, hpost]
      split
      · exact hget
      · split
        · exact hget
        · rw [show ((false, handle_rate_limit now rst rem b) : Bool × BotState).2 =
            handle_rate_limit now rst rem b from rfl, handle_rate_limit_state]
          exact hget
    | tweepyErr =>
      simp only [generate_and_send_reply, hpost]
      split
      · exact hget
      · split
        · exact hget
        · exact hget

/-- C6 witness: the amended theorem's guarded-call-site half applied to a
concrete state with an existing gate. -/
theorem c6_amended_witness :
    State.get_allowed_author
        (generate_and_send_reply false ⟨("x").data, ⟨Except.error (), Except.error ()⟩,
          PostResult.posted⟩ 0 ⟨"t1", "a2", "c1", none, none, [], [], none⟩ none none
          ⟨⟨[], [("c1", "a1")]⟩, 0, 0, 0, 0, 0, 0, 1⟩).2.state "c1" = some "a1" :=
  c6_amended.2 false ⟨("x").data, ⟨Except.error (), Except.error ()⟩, PostResult.posted⟩ 0
    ⟨"t1", "a2", "c1", none, none, [], [], none⟩ none none
    ⟨⟨[], [("c1", "a1")]⟩, 0, 0, 0, 0, 0, 0, 1⟩ "a1" (by decide) (by decide)

/-! ## Claim C10 -/

lemma exists_of_findSome {α β : Type} (f : α → Option β) :
    ∀ (l : List α) (b : β), l.findSome? f = some b → ∃ a ∈ l, f a = some b := by
  intro l
  induction l with
  | nil =>
    intro b h
    simp [List.findSome?] at h
  | cons a l ih =>
    intro b h
    simp only [List.findSome?] at h
    cases hfa : f a with
    | some c =>
      rw [hfa] at h
      dsimp only at h
      exact ⟨a, List.mem_cons_self a l, hfa.trans h⟩
    | none =>
      rw [hfa] at h
      dsimp only at h
      obtain ⟨x, hx, hfx⟩ := ih b h
      exact ⟨x, List.mem_cons_of_mem a hx, hfx⟩

lemma smart_truncate_length (char_limit : Nat) (text : List Char)
    (hL : 11 ≤ char_limit) : (smart_truncate char_limit text).length ≤ char_limit := by
  unfold smart_truncate
  cases hfs : smart_truncate_hit char_limit (text.take (char_limit - 10)) with
  | some lp =>
    dsimp only
    unfold smart_truncate_hit at hfs
    obtain ⟨p, hmem, heq⟩ := exists_of_findSome _ _ _ hfs
    have hr : rfindSub p (text.take (char_limit - 10)) = some lp := by
      cases hrf : rfindSub p (text.take (char_limit - 10)) with
      | none =>
        rw [hrf] at heq
        simp at heq
      | some lp2 =>
        rw [hrf] at heq
        dsimp only at heq
        by_cases hgt : 10 * lp2 > 7 * char_limit
        · rw [if_pos hgt] at heq
          rw [← Option.some.inj heq]
        · rw [if_neg hgt] at heq
          cases heq
    have hb := rfindSub_bound hr
    have hplen : p.length = 2 := by
      simp only [List.mem_cons, List.not_mem_nil, or_false] at hmem
      rcases hmem with rfl | rfl | rfl <;> rfl
    rw [hplen, List.length_take] at hb
    simp only [List.length_take]
    omega
  | none =>
    dsimp only
    have e3 : ((("...").data).length : Nat) = 3 := rfl
    simp only [List.length_append, List.length_take, e3]
    omega

/-- C10: the string `reply_to_tweet` actually submits to `create_tweet`
never exceeds the active character limit: text within the limit is posted
verbatim, and longer text is truncated (sentence boundary past 70% of the
limit, else a hard cut with an ellipsis) to at most the limit. -/
theorem c10_submitted_within_limit (premium : Bool) (text : List Char) :
    (text.length ≤ (if premium then 25000 else 280) →
      reply_to_tweet_submitted premium text = text) ∧
    (reply_to_tweet_submitted premium text).length ≤ (if premium then 25000 else 280) := by
  have hL : 11 ≤ (if premium then 25000 else 280 : Nat) := by
    cases premium <;> norm_num
  constructor
  · intro hle
    simp only [reply_to_tweet_submitted, if_pos hle]
  · by_cases hle : text.length ≤ (if premium then 25000 else 280 : Nat)
    · simp only [reply_to_tweet_submitted, if_pos hle]
      exact hle
    · simp only [reply_to_tweet_submitted, if_neg hle]
      exact smart_truncate_length _ text hL

/-- C10 witness: the theorem applied to a concrete over-limit reply (300
characters, standard account): the submitted string has exactly 280
characters. -/
theorem c10_submitted_within_limit_witness :
    (reply_to_tweet_submitted false (List.replicate 300 ('a'))).length ≤ 280 ∧
    (reply_to_tweet_submitted false (("ok").data) = ("ok").data) := by
  constructor
  · exact (c10_submitted_within_limit false (List.replicate 300 ('a'))).2
  · exact (c10_submitted_within_limit false (("ok").data)).1 (by decide)

/-! ## Claim C7 -/

lemma removeRefBlocksAux_length_le :
    ∀ (fuel : Nat) (s : List Char), (removeRefBlocksAux fuel s).length ≤ s.length := by
  intro fuel
  induction fuel with
  | zero =>
    intro s
    simp [removeRefBlocksAux]
  | succ n ih =>
    intro s
    cases h1 : findSub (("[REF]").data) s with
    | none => simp [removeRefBlocksAux, h1]
    | some i =>
      cases h2 : findSub (("[/REF]").data) (s.drop (i + 5)) with
      | none => simp [removeRefBlocksAux, h1, h2]
      | some j =>
        simp only [removeRefBlocksAux, h1, h2, List.length_append, List.length_take]
        have := ih ((s.drop (i + 5)).drop (j + 6))
        simp only [List.length_drop] at this
        omega

lemma removeRefBlocks_length_le (s : List Char) :
    (removeRefBlocks s).length ≤ s.length :=
  removeRefBlocksAux_length_le s.length s

lemma length_dropWhile_le (p : Char → Bool) (l : List Char) :
    (l.dropWhile p).length ≤ l.length := by
  induction l with
  | nil => simp
  | cons a l ih =>
    by_cases hp : p a
    · simp only [List.dropWhile_cons, hp, if_true, List.length_cons]
      omega
    · simp [List.dropWhile_cons, hp]

lemma pyStrip_length_le (s : List Char) : (pyStrip s).length ≤ s.length := by
  unfold pyStrip
  calc ((s.dropWhile isPySpace).reverse.dropWhile isPySpace).reverse.length
      = ((s.dropWhile isPySpace).reverse.dropWhile isPySpace).length :=
        List.length_reverse _
    _ ≤ (s.dropWhile isPySpace).reverse.length := length_dropWhile_le _ _
    _ = (s.dropWhile isPySpace).length := List.length_reverse _
    _ ≤ s.length := length_dropWhile_le _ _

lemma strip_ref_tags_length_le (s : List Char) :
    (strip_ref_tags s).length ≤ s.length :=
  le_trans (pyStrip_length_le _) (removeRefBlocks_length_le s)

lemma craft_no_candidate_calls_le (premium : Bool) (o : CraftOracle) :
    (craft_tweet_no_candidate premium o).2 ≤ 2 := by
  cases hi : o.initial with
  | error e => simp [craft_tweet_no_candidate, hi]
  | ok content =>
    simp only [craft_tweet_no_candidate, hi]
    split
    · cases o.retry <;> simp
    · simp

/-- C7 counterexample: with a draft whose `\x5bFINAL_REPLY\x5d` block holds 281
characters (over the 280-character standard budget), `craft_tweet` makes
exactly one regeneration call and returns its 290-character result without
re-checking the length — so the returned string exceeds the active
character budget. -/
theorem c7_overlength_retry_escapes :
    ((craft_tweet false ⟨Except.error (), Except.ok (List.replicate 290 ('c'))⟩
        ((("[FINAL_REPLY]").data) ++ List.replicate 281 ('a') ++ (("[/FINAL_REPLY]").data))
        none false).1).length = 290 ∧
    get_tweet_char_limit false < 290 ∧
    (craft_tweet false ⟨Except.error (), Except.ok (List.replicate 290 ('c'))⟩
        ((("[FINAL_REPLY]").data) ++ List.replicate 281 ('a') ++ (("[/FINAL_REPLY]").data))
        none false).2 = 1 := by
  refine ⟨?_, by decide, ?_⟩ <;> decide

/-- C7 amended: `craft_tweet` makes at most two LLM calls (never an
unbounded loop); a nonempty banned-or-oversized draft candidate triggers
exactly one regeneration call whose result is returned without re-checking;
a clean candidate is returned directly, stripped and within the budget
(zero calls); and the fallback path's first result, when clean, is returned
within the budget after one call. Only the single retry's output can exceed
the budget. -/
theorem c7_amended :
    (∀ (premium : Bool) (o : CraftOracle) (s : List Char)
        (fa : Option (List Char)) (um : Bool),
      (craft_tweet premium o s fa um).2 ≤ 2) ∧
    (∀ (premium : Bool) (o : CraftOracle) (s : List Char)
        (fa : Option (List Char)) (um : Bool) (c : List Char),
      extract_final_reply s = some c → c.isEmpty = false →
      (is_banned (strip_ref_tags c) = true ∨
        get_tweet_char_limit premium < (strip_ref_tags c).length) →
      (craft_tweet premium o s fa um).2 = 1) ∧
    (∀ (premium : Bool) (o : CraftOracle) (s : List Char)
        (fa : Option (List Char)) (um : Bool) (c : List Char),
      extract_final_reply s = some c → c.isEmpty = false →
      is_banned (strip_ref_tags c) = false →
      (strip_ref_tags c).length ≤ get_tweet_char_limit premium →
      (craft_tweet premium o s fa um).1 = pyStrip (strip_ref_tags c) ∧
      (craft_tweet premium o s fa um).1.length ≤ get_tweet_char_limit premium ∧
      (craft_tweet premium o s fa um).2 = 0) ∧
    (∀ (premium : Bool) (o : CraftOracle) (content : List Char),
      o.initial = Except.ok content →
      is_banned (strip_ref_tags (pyStrip content)) = false →
      (strip_ref_tags (pyStrip content)).length ≤ get_tweet_char_limit premium →
      (craft_tweet_no_candidate premium o).1.length ≤ get_tweet_char_limit premium ∧
      (craft_tweet_no_candidate premium o).2 = 1) := by
  refine ⟨?_, ?_, ?_, ?_⟩
  · intro premium o s fa um
    simp only [craft_tweet]
    cases hx : extract_final_reply s with
    | none => exact craft_no_candidate_calls_le premium o
    | some c0 =>
      by_cases hc : c0.isEmpty
      · simp only [hc, if_true]
        exact craft_no_candidate_calls_le premium o
      · simp only [hc, Bool.false_eq_true, if_false]
        split
        · simp
        · cases o.retry <;> simp
  · intro premium o s fa um c hx hc hbad
    simp only [craft_tweet, hx, hc, Bool.false_eq_true, if_false]
    have hcond : (!is_banned (strip_ref_tags c) &&
        decide ((strip_ref_tags c).length ≤ get_tweet_char_limit premium)) = false := by
      rcases hbad with hb | hb
      · simp [hb]
      · simp [Nat.not_le.mpr hb]
    rw [if_neg (by simp [hcond])]
    cases o.retry <;> rfl
  · intro premium o s fa um c hx hc hban hlen
    simp only [craft_tweet, hx, hc, Bool.false_eq_true, if_false]
    have hcond : (!is_banned (strip_ref_tags c) &&
        decide ((strip_ref_tags c).length ≤ get_tweet_char_limit premium)) = true := by
      simp [hban, hlen]
    rw [if_pos (by simp [hcond])]
    refine ⟨rfl, ?_, rfl⟩
    exact le_trans (pyStrip_length_le _) hlen
  · intro premium o content hi hban hlen
    simp only [craft_tweet_no_candidate, hi]
    have hcond : (is_banned (strip_ref_tags (pyStrip content)) ||
        decide ((strip_ref_tags (pyStrip content)).length > get_tweet_char_limit premium)) = false := by
      simp [hban, Nat.not_lt.mpr hlen]
    rw [if_neg (by simp [hcond])]
    exact ⟨le_trans (strip_ref_tags_length_le _) hlen, rfl⟩

/-- C7 witness: the amended theorem's direct-candidate clause applied to a
concrete clean draft: it is returned verbatim with zero LLM calls. -/
theorem c7_amended_witness :
    (craft_tweet false ⟨Except.error (), Except.error ()⟩
        (("[FINAL_REPLY]ok[/FINAL_REPLY]").data) none false).1 = ("ok").data ∧
    (craft_tweet false ⟨Except.error (), Except.error ()⟩
        (("[FINAL_REPLY]ok[/FINAL_REPLY]").data) none false).2 = 0 := by
  have h := c7_amended.2.2.1 false ⟨Except.error (), Except.error ()⟩
    (("[FINAL_REPLY]ok[/FINAL_REPLY]").data) none false (("ok").data)
    (by decide) (by decide) (by decide) (by decide)
  exact ⟨by rw [h.1]; decide, h.2.2⟩

/-! ## Claim C3 -/

/-- C3 (code bug): bot.py reads `Config.MAX_TWEET_AGE_MINUTES`, which
config.py does not define (it defines `MAX_TWEET_AGE_HOURS`); the resulting
`AttributeError` is swallowed by the broad `except` in `_is_tweet_too_old`,
so with the repository's actual configuration EVERY mention is reported too
old — there is no age boundary at all. Concretely, a mention created one
second before now, passing every earlier gate, is skipped as stale and
marked processed instead of proceeding to context extraction and reply
generation. -/
theorem c3_age_gate_always_fires :
    (∀ (now : Int) (t : Tweet), is_tweet_too_old repoConfig now t = true) ∧
    (process_single_tweet repoConfig false 1000 "bot"
        (fun u => if u == "a1" then some ⟨"a1", false⟩ else none)
        ⟨fun _ => FetchResult.notFound, MediaResult.ok none none,
          ⟨("x").data, ⟨Except.error (), Except.error ()⟩, PostResult.tweepyErr⟩⟩
        ⟨"t1", "a1", "t1", some (CreatedAt.dt 999), none, ("hi").data, [], none⟩
        ⟨⟨[], []⟩, 0, 0, 0, 0, 0, 0, 1⟩ =
      (⟨⟨["t1"], []⟩, 0, 0, 0, 0, 0, 0, 1⟩, ProcOutcome.skippedAge)) := by
  constructor
  · intro now t
    unfold is_tweet_too_old tooOldCheck repoConfig
    cases h : t.created_at with
    | none => rfl
    | some c => cases c <;> rfl
  · decide

/-! ## Claim C2 -/

/-- C2: a mention in a conversation that already has a (truthy)
conversation-gate entry, from an author different from the gated author, is
skipped and marked processed, and the generation pipeline is never invoked
for it — under any configuration, since the gate check precedes the age
check and all external calls. -/
theorem c2_conversation_gate (cfg : BotConfig) (premium : Bool) (now : Int)
    (bot_user_id : String) (user_lookup : String → Option Author)
    (env : TweetEnv) (t : Tweet) (b : BotState) (author : Author) (g : String)
    (h1 : State.is_processed b.state t.id = false)
    (h2 : user_lookup t.author_id = some author)
    (h3 : author.isProtected = false)
    (h4 : author.id ≠ bot_user_id)
    (h5 : State.get_allowed_author b.state t.conversation_id = some g)
    (h6 : g ≠ "")
    (h7 : t.author_id ≠ g) :
    process_single_tweet cfg premium now bot_user_id user_lookup env t b =
      ({ b with state := State.add_tweet b.state t.id }, ProcOutcome.skippedGate) ∧
    pipelineInvoked
      (process_single_tweet cfg premium now bot_user_id user_lookup env t b).2 = false := by
  have hmain : process_single_tweet cfg premium now bot_user_id user_lookup env t b =
      ({ b with state := State.add_tweet b.state t.id }, ProcOutcome.skippedGate) := by
    simp only [process_single_tweet, h1, Bool.false_eq_true, if_false, h2, h5]
    simp only [h3, Bool.false_eq_true, if_false]
    rw [show (author.id == bot_user_id) = false from beq_eq_false_iff_ne.mpr h4]
    simp only [Bool.false_eq_true, if_false]
    rw [show (g == "") = false from beq_eq_false_iff_ne.mpr h6,
      show (t.author_id == g) = false from beq_eq_false_iff_ne.mpr h7]
    simp
  refine ⟨hmain, ?_⟩
  rw [hmain]
  rfl

/-- C2 witness: the gate theorem applied to a concrete mention from a
stranger in a conversation gated to another author. -/
theorem c2_conversation_gate_witness :
    process_single_tweet ⟨none, none⟩ false 0 "bot"
        (fun u => if u == "bob" then some ⟨"bob", false⟩ else none)
        ⟨fun _ => FetchResult.notFound, MediaResult.ok none none,
          ⟨("x").data, ⟨Except.error (), Except.error ()⟩, PostResult.tweepyErr⟩⟩
        ⟨"t9", "bob", "conv1", none, none, [], [], none⟩
        ⟨⟨[], [("conv1", "alice")]⟩, 0, 0, 0, 0, 0, 0, 1⟩ =
      (⟨⟨["t9"], [("conv1", "alice")]⟩, 0, 0, 0, 0, 0, 0, 1⟩, ProcOutcome.skippedGate) :=
  (c2_conversation_gate ⟨none, none⟩ false 0 "bot"
    (fun u => if u == "bob" then some ⟨"bob", false⟩ else none)
    ⟨fun _ => FetchResult.notFound, MediaResult.ok none none,
      ⟨("x").data, ⟨Except.error (), Except.error ()⟩, PostResult.tweepyErr⟩⟩
    ⟨"t9", "bob", "conv1", none, none, [], [], none⟩
    ⟨⟨[], [("conv1", "alice")]⟩, 0, 0, 0, 0, 0, 0, 1⟩
    ⟨"bob", false⟩ "alice"
    (by decide) (by decide) rfl (by decide) (by decide) (by decide) (by decide)).1

/-! ## Claim C1 -/

/-- C1: the reply stage (`_generate_and_send_reply` composed with the
mark-processed tail of `_process_single_tweet`). On pipeline failure (the
expert analysis returns the error sentinel, or the crafted reply is empty
or the sentinel) or post failure (throttling, `Forbidden`, any Twitter
error), `reply_successful` is false and the mention's id is NOT added to
the processed set, leaving it for retry next poll. On a confirmed post, the
hourly reply counter is incremented, the conversation gate is set to the
mention's author when unset, an existing truthy gate is left unchanged, and
the id is added to the processed set. -/
theorem c1_reply_bookkeeping (premium : Bool) (o : GenOracle) (now : Int)
    (t : Tweet) (ib iu : Option String) (b : BotState) :
    ((o.analysis = ERROR_MESSAGE ∨
      (craft_tweet premium o.craft o.analysis none (truthyStr ib || truthyStr iu)).1 = [] ∨
      (craft_tweet premium o.craft o.analysis none (truthyStr ib || truthyStr iu)).1 = ERROR_MESSAGE ∨
      o.post ≠ PostResult.posted) →
      (generate_and_send_reply premium o now t ib iu b).1 = false ∧
      (mark_if_successful (generate_and_send_reply premium o now t ib iu b) t.id).state.processed_tweets
        = b.state.processed_tweets) ∧
    (o.analysis ≠ ERROR_MESSAGE →
     (craft_tweet premium o.craft o.analysis none (truthyStr ib || truthyStr iu)).1 ≠ [] →
     (craft_tweet premium o.craft o.analysis none (truthyStr ib || truthyStr iu)).1 ≠ ERROR_MESSAGE →
     o.post = PostResult.posted →
      (generate_and_send_reply premium o now t ib iu b).1 = true ∧
      (mark_if_successful (generate_and_send_reply premium o now t ib iu b) t.id).hourly_reply_count
        = b.hourly_reply_count + 1 ∧
      t.id ∈ (mark_if_successful (generate_and_send_reply premium o now t ib iu b) t.id).state.processed_tweets ∧
      (truthyStr (State.get_allowed_author b.state t.conversation_id) = false →
        State.get_allowed_author
          (mark_if_successful (generate_and_send_reply premium o now t ib iu b) t.id).state
          t.conversation_id = some t.author_id) ∧
      (truthyStr (State.get_allowed_author b.state t.conversation_id) = true →
        State.get_allowed_author
          (mark_if_successful (generate_and_send_reply premium o now t ib iu b) t.id).state
          t.conversation_id = State.get_allowed_author b.state t.conversation_id)) := by
  by_cases ha : o.analysis = ERROR_MESSAGE
  · have ha' : (o.analysis == ERROR_MESSAGE) = true := beq_iff_eq.mpr ha
    simp only [generate_and_send_reply, ha', if_true]
    constructor
    · intro _
      exact ⟨by simp, by simp [mark_if_successful]⟩
    · intro hna _ _ _
      exact absurd ha hna
  · have ha' : (o.analysis == ERROR_MESSAGE) = false := beq_eq_false_iff_ne.mpr ha
    simp only [generate_and_send_reply, ha', Bool.false_eq_true, if_false]
    by_cases hfr : ((craft_tweet premium o.craft o.analysis none
        (truthyStr ib || truthyStr iu)).1.isEmpty ||
        (craft_tweet premium o.craft o.analysis none (truthyStr ib || truthyStr iu)).1
          == ERROR_MESSAGE) = true
    · simp only [hfr, if_true]
      constructor
      · intro _
        exact ⟨by simp, by simp [mark_if_successful]⟩
      · intro _ hne hns _
        rcases Bool.or_eq_true _ _ |>.mp hfr with he | he
        · exact absurd (List.isEmpty_iff.mp he) hne
        · exact absurd (beq_iff_eq.mp he) hns
    · simp only [hfr, Bool.false_eq_true, if_false]
      cases hpost : o.post with
      | posted =>
        constructor
        · intro hfail
          rcases hfail with h | h | h | h
          · exact absurd h ha
          · rw [Bool.or_eq_true, not_or] at hfr
            exact absurd (by simp [h]) hfr.1
          · rw [Bool.or_eq_true, not_or] at hfr
            exact absurd (beq_iff_eq.mpr h) hfr.2
          · exact absurd rfl h
        · intro _ _ _ _
          by_cases hgate : truthyStr (State.get_allowed_author b.state t.conversation_id) = true
          · simp only [hgate, if_true]
            refine ⟨by simp, by simp [mark_if_successful], ?_, ?_, ?_⟩
            · simp only [mark_if_successful]
              exact mem_add_tweet _ t.id
            · intro hfalse
              cases hfalse
            · intro _
              rfl
          · have hgate' : truthyStr (State.get_allowed_author b.state t.conversation_id) = false :=
              Bool.not_eq_true _ |>.mp hgate
            simp only [hgate', Bool.false_eq_true, if_false]
            refine ⟨by simp, by simp [mark_if_successful], ?_, ?_, ?_⟩
            · simp only [mark_if_successful]
              exact mem_add_tweet _ t.id
            · intro _
              exact get_allowed_set_same b.state t.conversation_id t.author_id
            · intro htrue
              cases htrue
      | forbidden =>
        constructor
        · intro _
          exact ⟨by simp, by simp [mark_if_successful]⟩
        · intro _ _ _ hp
          cases hp
      | tooMany rst rem =>
        constructor
        · intro _
          refine ⟨by simp, ?_⟩
          show (mark_if_successful (false, handle_rate_limit now rst rem b) t.id).state.processed_tweets
            = b.state.processed_tweets
          simp only [mark_if_successful, Bool.false_eq_true, if_false]
          rw [handle_rate_limit_state]
        · intro _ _ _ hp
          cases hp
      | tweepyErr =>
        constructor
        · intro _
          exact ⟨by simp, by simp [mark_if_successful]⟩
        · intro _ _ _ hp
          cases hp

/-- C1 witness: the bookkeeping theorem's success clause applied to a
concrete confirmed post: the counter goes to 1, the gate is set to the
author, and the id enters the processed set. -/
theorem c1_reply_bookkeeping_witness :
    (generate_and_send_reply false
      ⟨("[FINAL_REPLY]yes[/FINAL_REPLY]").data, ⟨Except.error (), Except.error ()⟩,
        PostResult.posted⟩ 0
      ⟨"t1", "a1", "c1", none, none, ("q").data, [], none⟩ none none
      ⟨⟨[], []⟩, 0, 0, 0, 0, 0, 0, 1⟩).1 = true ∧
    "t1" ∈ (mark_if_successful (generate_and_send_reply false
      ⟨("[FINAL_REPLY]yes[/FINAL_REPLY]").data, ⟨Except.error (), Except.error ()⟩,
        PostResult.posted⟩ 0
      ⟨"t1", "a1", "c1", none, none, ("q").data, [], none⟩ none none
      ⟨⟨[], []⟩, 0, 0, 0, 0, 0, 0, 1⟩) "t1").state.processed_tweets := by
  have h := (c1_reply_bookkeeping false
    ⟨("[FINAL_REPLY]yes[/FINAL_REPLY]").data, ⟨Except.error (), Except.error ()⟩,
      PostResult.posted⟩ 0
    ⟨"t1", "a1", "c1", none, none, ("q").data, [], none⟩ none none
    ⟨⟨[], []⟩, 0, 0, 0, 0, 0, 0, 1⟩).2
    (by decide) (by decide) (by decide) rfl
  exact ⟨h.1, h.2.2.1⟩

/-! ## Claim C9 -/

/-- C9: on a synthetic chain of quote-tweets more than five deep (the root
quotes c1, which quotes c2, and so on; c5 quotes a further c6), context
extraction started at the call sites' `depth=0, max_depth=3` expands
exactly the tweets at depths 0 through 3, returns the accumulated text with
the deeper quotes unexpanded (t4, t5 never appear; c4 is never even
fetched past depth 3's cutoff), and returns normally rather than erroring
or recursing further. -/
theorem c9_depth_bound (t0 t1 t2 t3 t4 t5 : List Char) :
    extract_full_context
      (fun s =>
        if s == "c1" then FetchResult.found ⟨t1, [("quoted", "c2")], [], none⟩
        else if s == "c2" then FetchResult.found ⟨t2, [("quoted", "c3")], [], none⟩
        else if s == "c3" then FetchResult.found ⟨t3, [("quoted", "c4")], [], none⟩
        else if s == "c4" then FetchResult.found ⟨t4, [("quoted", "c5")], [], none⟩
        else if s == "c5" then FetchResult.found ⟨t5, [("quoted", "c6")], [], none⟩
        else FetchResult.notFound)
      3 ⟨t0, [("quoted", "c1")], [], none⟩
    = Except.ok
        (t0 ++ ("\n\n[Quoted tweet: ").data ++
          ((t1 ++ ("\n\n[Quoted tweet: ").data ++
            ((t2 ++ ("\n\n[Quoted tweet: ").data ++ t3 ++ ("]").data) ++ ("]").data)) ++
              ("]").data), []) := by
  simp [extract_full_context, extract_full_context_refs]

/-! ## Claim C8 -/

/-- C8 counterexample: a poll cycle that completes without any rate-limit
error (an empty mentions fetch, under the spec-modelled config for the two
`Config` attributes missing from config.py) leaves the backoff multiplier
at its previous value 4 — it is NOT reset to 1. The only reset-to-1 sits
inside `_handle_rate_limit`'s future-reset branch. -/
theorem c8_no_reset_on_clean_poll :
    (process_mentions specConfig false "bot"
        ⟨0, MentionsResult.noneFound, fun _ => none,
          fun _ => ⟨fun _ => FetchResult.notFound, MediaResult.ok none none,
            ⟨("x").data, ⟨Except.error (), Except.error ()⟩, PostResult.tweepyErr⟩⟩⟩
        ⟨⟨[], []⟩, 0, 0, 0, 0, 0, 0, 4⟩).1.rate_limit_backoff = 4 ∧
    (process_mentions specConfig false "bot"
        ⟨0, MentionsResult.noneFound, fun _ => none,
          fun _ => ⟨fun _ => FetchResult.notFound, MediaResult.ok none none,
            ⟨("x").data, ⟨Except.error (), Except.error ()⟩, PostResult.tweepyErr⟩⟩⟩
        ⟨⟨[], []⟩, 0, 0, 0, 0, 0, 0, 4⟩).2 = PollExit.emptyCompleted ∧
    (4 : Nat) ≠ 1 := by
  refine ⟨?_, ?_, by decide⟩ <;> rfl

/-- A per-mention environment that presents no throttling signal: no tweet
fetch, media processing, or reply post reports `TooManyRequests`. A poll
over such environments is one that completes without a rate-limit error. -/
def envNoThrottle (env : TweetEnv) : Prop :=
  (∀ (id : String) (rst rem : Int), env.fetch id ≠ FetchResult.tooMany rst rem) ∧
  (∀ (rst rem : Int), env.media ≠ MediaResult.tooMany rst rem) ∧
  (∀ (rst rem : Int), env.gen.post ≠ PostResult.tooMany rst rem)

lemma extract_refs_ok_of_fetch (fetch : String → FetchResult)
    (hf : ∀ (id : String) (rst rem : Int), fetch id ≠ FetchResult.tooMany rst rem)
    (fuel : Nat)
    (hfull : ∀ tr, ∃ r, extract_full_context fetch fuel tr = Except.ok r) :
    ∀ (rs : List (String × String)) (t : List Char) (imgs : List String),
      ∃ r, extract_full_context_refs fetch fuel rs t imgs = Except.ok r := by
  intro rs
  induction rs with
  | nil =>
    intro t imgs
    refine ⟨(t, imgs), ?_⟩
    simp only [extract_full_context_refs]
  | cons p rest ih =>
    intro t imgs
    obtain ⟨ty, rid⟩ := p
    by_cases hq : (ty == "quoted") = true
    · cases hfr : fetch rid with
      | found sub =>
        obtain ⟨⟨qt, qi⟩, hr0⟩ := hfull sub
        simp only [extract_full_context_refs, hq, if_true, hfr, hr0]
        exact ih _ _
      | notFound =>
        simp only [extract_full_context_refs, hq, if_true, hfr]
        exact ih _ _
      | tooMany rst rem => exact absurd hfr (hf rid rst rem)
      | tweepyErr =>
        simp only [extract_full_context_refs, hq, if_true, hfr]
        exact ih _ _
    · have hq' : (ty == "quoted") = false := Bool.not_eq_true _ |>.mp hq
      simp only [extract_full_context_refs, hq', Bool.false_eq_true, if_false]
      exact ih _ _

lemma extract_full_context_ok_of_fetch (fetch : String → FetchResult)
    (hf : ∀ (id : String) (rst rem : Int), fetch id ≠ FetchResult.tooMany rst rem) :
    ∀ (fuel : Nat) (tr : TweetResp),
      ∃ r, extract_full_context fetch fuel tr = Except.ok r := by
  intro fuel
  induction fuel with
  | zero =>
    intro tr
    refine ⟨(tr.text, []), ?_⟩
    simp only [extract_full_context]
  | succ n ih =>
    intro tr
    obtain ⟨r, hr⟩ := extract_refs_ok_of_fetch fetch hf n ih
      tr.referenced_tweets tr.text (tr.photoFetches.filterMap id)
    refine ⟨r, ?_⟩
    simp only [extract_full_context]
    exact hr

lemma ecft_refs_state_eq (fetch : String → FetchResult)
    (hf : ∀ (id : String) (rst rem : Int), fetch id ≠ FetchResult.tooMany rst rem)
    (now : Int) :
    ∀ (rs : List (String × String)) (ct : Option (List Char))
      (imgs urls : List String) (b : BotState),
      (ecft_refs fetch now rs ct imgs urls b).2.2.2 = b := by
  intro rs
  induction rs with
  | nil =>
    intro ct imgs urls b
    rfl
  | cons p rest ih =>
    intro ct imgs urls b
    obtain ⟨ty, rid⟩ := p
    by_cases hq : (ty == "quoted") = true
    · cases hfr : fetch rid with
      | found sub =>
        obtain ⟨⟨qt, qi⟩, hr0⟩ := extract_full_context_ok_of_fetch fetch hf 3 sub
        simp only [ecft_refs, hq, if_true, hfr, hr0]
        exact ih _ _ _ _
      | notFound =>
        simp only [ecft_refs, hq, if_true, hfr]
        exact ih _ _ _ _
      | tooMany rst rem => exact absurd hfr (hf rid rst rem)
      | tweepyErr =>
        simp only [ecft_refs, hq, if_true, hfr]
        exact ih _ _ _ _
    · have hq' : (ty == "quoted") = false := Bool.not_eq_true _ |>.mp hq
      simp only [ecft_refs, hq', Bool.false_eq_true, if_false]
      exact ih _ _ _ _

lemma context_phase_no_throttle (fetch : String → FetchResult)
    (hf : ∀ (id : String) (rst rem : Int), fetch id ≠ FetchResult.tooMany rst rem)
    (now : Int) (bid : String) (t : Tweet) (b : BotState) :
    ∃ ct ci cu, context_phase fetch now bid t b = Except.ok (ct, ci, cu, b) := by
  unfold context_phase
  by_cases hconv : (t.conversation_id == t.id) = true
  · simp only [hconv, if_true]
    unfold extract_context_from_tweet
    rcases hecft : ecft_refs fetch now t.referenced_tweets none [] [] b
      with ⟨ct, imgs, urls, b2⟩
    have hb2 : b2 = b := by
      have h4 := ecft_refs_state_eq fetch hf now t.referenced_tweets none [] [] b
      rw [hecft] at h4
      exact h4
    rw [hb2]
    exact ⟨ct, imgs, pySetOfList (urls ++ extract_urls_from_entities t.entities), rfl⟩
  · have hconv' : (t.conversation_id == t.id) = false := Bool.not_eq_true _ |>.mp hconv
    simp only [hconv', Bool.false_eq_true, if_false]
    cases hfp : fetch t.conversation_id with
    | found parent =>
      obtain ⟨⟨ct, ci⟩, hfc⟩ := extract_full_context_ok_of_fetch fetch hf 3 parent
      simp only [hfc]
      exact ⟨_, _, _, rfl⟩
    | notFound => exact ⟨none, [], [], rfl⟩
    | tooMany rst rem => exact absurd hfp (hf _ rst rem)
    | tweepyErr => exact ⟨none, [], [], rfl⟩

lemma mark_if_successful_backoff (r : Bool × BotState) (id : String) :
    (mark_if_successful r id).rate_limit_backoff = r.2.rate_limit_backoff := by
  unfold mark_if_successful
  split <;> rfl

lemma generate_and_send_reply_backoff (premium : Bool) (o : GenOracle) (now : Int)
    (t : Tweet) (ib iu : Option String) (b : BotState)
    (hp : ∀ (rst rem : Int), o.post ≠ PostResult.tooMany rst rem) :
    (generate_and_send_reply premium o now t ib iu b).2.rate_limit_backoff
      = b.rate_limit_backoff := by
  cases hpost : o.post with
  | posted =>
    simp only [generate_and_send_reply, hpost]
    split
    · rfl
    · split
      · rfl
      · split <;> rfl
  | forbidden =>
    simp only [generate_and_send_reply, hpost]
    split
    · rfl
    · split <;> rfl
  | tooMany rst rem => exact absurd hpost (hp rst rem)
  | tweepyErr =>
    simp only [generate_and_send_reply, hpost]
    split
    · rfl
    · split <;> rfl

lemma process_after_gate_backoff (cfg : BotConfig) (premium : Bool) (now : Int)
    (bid : String) (env : TweetEnv) (t : Tweet) (b : BotState)
    (h1 : ∀ (id : String) (rst rem : Int), env.fetch id ≠ FetchResult.tooMany rst rem)
    (h2 : ∀ (rst rem : Int), env.media ≠ MediaResult.tooMany rst rem)
    (h3 : ∀ (rst rem : Int), env.gen.post ≠ PostResult.tooMany rst rem) :
    (process_after_gate cfg premium now bid env t b).1.rate_limit_backoff
      = b.rate_limit_backoff := by
  unfold process_after_gate
  split
  · rfl
  · obtain ⟨ct, ci, cu, hcp⟩ := context_phase_no_throttle env.fetch h1 now bid t b
    rw [hcp]
    cases hm : env.media with
    | tooMany rst rem => exact absurd hm (h2 rst rem)
    | ok x y =>
      dsimp only
      rw [mark_if_successful_backoff]
      repeat' split
      all_goals exact generate_and_send_reply_backoff _ env.gen _ _ _ _ _ h3
    | tweepyErr =>
      dsimp only
      rw [mark_if_successful_backoff]
      repeat' split
      all_goals exact generate_and_send_reply_backoff _ env.gen _ _ _ _ _ h3
    | otherErr =>
      dsimp only
      rw [mark_if_successful_backoff]
      repeat' split
      all_goals exact generate_and_send_reply_backoff _ env.gen _ _ _ _ _ h3

lemma process_single_tweet_backoff (cfg : BotConfig) (premium : Bool) (now : Int)
    (bid : String) (user_lookup : String → Option Author) (env : TweetEnv)
    (t : Tweet) (b : BotState)
    (h1 : ∀ (id : String) (rst rem : Int), env.fetch id ≠ FetchResult.tooMany rst rem)
    (h2 : ∀ (rst rem : Int), env.media ≠ MediaResult.tooMany rst rem)
    (h3 : ∀ (rst rem : Int), env.gen.post ≠ PostResult.tooMany rst rem) :
    (process_single_tweet cfg premium now bid user_lookup env t b).1.rate_limit_backoff
      = b.rate_limit_backoff := by
  unfold process_single_tweet
  split
  · rfl
  · split
    · rfl
    · split
      · rfl
      · split
        · rfl
        · split
          · split
            · rfl
            · exact process_after_gate_backoff cfg premium now bid env t b h1 h2 h3
          · exact process_after_gate_backoff cfg premium now bid env t b h1 h2 h3

lemma process_loop_backoff (cfg : BotConfig) (premium : Bool) (penv : PollEnv)
    (bid : String) (useCutoff : Bool)
    (henv : ∀ id : String, envNoThrottle (penv.tweet_env id)) :
    ∀ (ts : List Tweet) (b : BotState),
      (process_loop cfg premium penv bid useCutoff ts b).rate_limit_backoff
        = b.rate_limit_backoff := by
  intro ts
  induction ts with
  | nil =>
    intro b
    rfl
  | cons t rest ih =>
    intro b
    have hpsb := process_single_tweet_backoff cfg premium penv.now bid penv.user_lookup
      (penv.tweet_env t.id) t b (henv t.id).1 (henv t.id).2.1 (henv t.id).2.2
    simp only [process_loop]
    rw [ih]
    split
    · split <;> first
        | exact hpsb
        | (split <;> first | rfl | exact hpsb)
    · exact hpsb

/-- C8 amended: the backoff multiplier doubles (capped at 16) after each
throttling event whose reset time has already passed; it is reset to 1 only
inside the throttle handler when the reset time is still in the future
(after sleeping until the reset); and a poll cycle that completes without a
rate-limit error — an empty mentions fetch, or a fetch returning mentions
whose processing encounters no throttling signal — leaves the multiplier
unchanged: there is no reset on successful poll completion. -/
theorem c8_amended :
    (∀ (now rst rem : Int) (b : BotState), rst ≤ now →
      (handle_rate_limit now rst rem b).rate_limit_backoff =
        min (b.rate_limit_backoff * 2) 16) ∧
    (∀ (now rst rem : Int) (b : BotState), now < rst →
      (handle_rate_limit now rst rem b).rate_limit_backoff = 1) ∧
    (∀ (cfg : BotConfig) (premium : Bool) (bid : String) (penv : PollEnv) (b : BotState),
      (penv.mentions = MentionsResult.noneFound ∨
        ((∃ ts, penv.mentions = MentionsResult.got ts) ∧
          ∀ id : String, envNoThrottle (penv.tweet_env id))) →
      (process_mentions cfg premium bid penv b).1.rate_limit_backoff =
        b.rate_limit_backoff) := by
  refine ⟨?_, ?_, ?_⟩
  · intro now rst rem b h
    unfold handle_rate_limit
    rw [if_neg (by omega : ¬ rst > now)]
  · intro now rst rem b h
    unfold handle_rate_limit
    rw [if_pos (by omega : rst > now)]
  · intro cfg premium bid penv b hcase
    unfold process_mentions
    by_cases hr : penv.now - b.hourly_check_time ≥ 3600
    · rw [if_pos hr]
      dsimp only
      rw [if_neg (by omega : ¬ (0 : Nat) ≥ 30)]
      cases hcu : cfg.use_session_start_cutoff with
      | none => rfl
      | some u =>
        cases hma : cfg.max_tweet_age_minutes with
        | none => rfl
        | some m =>
          dsimp only
          rcases hcase with hm | ⟨⟨ts, hm⟩, henv⟩
          · rw [hm]
          · rw [hm]
            dsimp only
            split
            · rfl
            · show (process_loop cfg premium penv bid u ts.reverse
                  { b with hourly_reply_count := 0,
                           hourly_check_time := penv.now }).rate_limit_backoff
                = b.rate_limit_backoff
              exact process_loop_backoff cfg premium penv bid u henv ts.reverse _
    · rw [if_neg hr]
      dsimp only
      by_cases hq : b.hourly_reply_count ≥ 30
      · rw [if_pos hq]
      · rw [if_neg hq]
        cases hcu : cfg.use_session_start_cutoff with
        | none => rfl
        | some u =>
          cases hma : cfg.max_tweet_age_minutes with
          | none => rfl
          | some m =>
            dsimp only
            rcases hcase with hm | ⟨⟨ts, hm⟩, henv⟩
            · rw [hm]
            · rw [hm]
              dsimp only
              split
              · rfl
              · show (process_loop cfg premium penv bid u ts.reverse b).rate_limit_backoff
                  = b.rate_limit_backoff
                exact process_loop_backoff cfg premium penv bid u henv ts.reverse b

/-- C8 witness: the amended theorem's doubling clause applied to a concrete
stale throttle signal with multiplier 4 (it becomes 8), and its clean-poll
clause applied to a concrete poll that fetches and processes one mention
without any throttling signal (the multiplier stays 4). -/
theorem c8_amended_witness :
    (handle_rate_limit 10 3 0 ⟨⟨[], []⟩, 0, 0, 0, 0, 0, 0, 4⟩).rate_limit_backoff = 8 ∧
    (process_mentions specConfig false "bot"
        ⟨0, MentionsResult.got
            [⟨"t1", "a1", "t1", some (CreatedAt.dt (-1)), none, ("hi").data, [], none⟩],
          fun _ => none,
          fun _ => ⟨fun _ => FetchResult.notFound, MediaResult.ok none none,
            ⟨("x").data, ⟨Except.error (), Except.error ()⟩, PostResult.tweepyErr⟩⟩⟩
        ⟨⟨[], []⟩, 0, 0, 0, 0, 0, 0, 4⟩).1.rate_limit_backoff = 4 := by
  constructor
  · have h := c8_amended.1 10 3 0 ⟨⟨[], []⟩, 0, 0, 0, 0, 0, 0, 4⟩ (by decide)
    rw [h]
    decide
  · have h := c8_amended.2.2 specConfig false "bot"
      ⟨0, MentionsResult.got
          [⟨"t1", "a1", "t1", some (CreatedAt.dt (-1)), none, ("hi").data, [], none⟩],
        fun _ => none,
        fun _ => ⟨fun _ => FetchResult.notFound, MediaResult.ok none none,
          ⟨("x").data, ⟨Except.error (), Except.error ()⟩, PostResult.tweepyErr⟩⟩⟩
      ⟨⟨[], []⟩, 0, 0, 0, 0, 0, 0, 4⟩
      (Or.inr ⟨⟨_, rfl⟩, by
        intro id
        unfold envNoThrottle
        refine ⟨?_, ?_, ?_⟩
        · intro i rst rem hx
          cases hx
        · intro rst rem hx
          cases hx
        · intro rst rem hx
          cases hx⟩)
    exact h

end ArtCritic
